import Mathlib

set_option maxRecDepth 8000

/-!
Verification of the FL2000 DRM/VGA driver core against its specification.

The definitions below are a shallow embedding of the C source:
PLL/mode-timing solver (fl2000_drm.c part), the streaming buffer pool and
worker (fl2000_streaming.c), and the URB submit/status helpers (fl2000.h).
Machine integers are modelled as Nat/Int; for the value ranges admitted by
the driver (pixel clock at most 500 MHz, htotal at most 10000, as the
source comments assume) the 64-bit arithmetic of the source does not
overflow, so plain Nat arithmetic coincides with the u64 arithmetic of
the source.
-/

namespace Fl2000

/-! ## PLL solver (fl2000_drm.c) -/

/-- FL2000_PLL_PRECISION: fixed-point precision, 6 decimal digits. -/
def FL2000_PLL_PRECISION : Nat := 1000000

/-- FL2000_XTAL: input crystal clock in Hz. -/
def FL2000_XTAL : Nat := 10000000

/-- FL2000_VCOCLOCK_MIN in Hz. -/
def FL2000_VCOCLOCK_MIN : Nat := 62500000

/-- FL2000_VCOCLOCK_MAX in Hz. -/
def FL2000_VCOCLOCK_MAX : Nat := 1000000000

/-- FL2000_PPM_ERR_MAX: maximum acceptable ppm error. -/
def FL2000_PPM_ERR_MAX : Nat := 500

/-- FL2000_MAX_PIXCLOCK: maximum pixel clock in Hz. -/
def FL2000_MAX_PIXCLOCK : Nat := 500000000

/-- u64 all-ones value, the initial `min_ppm_err = (u64)(-1)` of the source. -/
def U64_MAX : Nat := 2 ^ 64 - 1

/-- struct fl2000_pll. -/
structure Pll where
  prescaler : Nat
  multiplier : Nat
  divisor : Nat
  function : Nat
  min_ppm_err : Nat
  deriving Repr, DecidableEq

/-- fl2000_pll_ppm_err: integer compute of the ppm error of
`vco_clk / divisor` against the requested clock in micro-units.
Nat subtraction and division mirror the u64 branch and truncation of the
source; the source never divides by zero for requested clocks of at least
1 kHz (clock_mil at least 10^9). -/
def fl2000_pll_ppm_err (clock_mil : Nat) (vco_clk : Nat) (divisor : Nat) : Nat :=
  let pll_clk_mil := vco_clk * FL2000_PLL_PRECISION / divisor
  let pll_clk_err :=
    if pll_clk_mil > clock_mil then pll_clk_mil - clock_mil
    else clock_mil - pll_clk_mil
  pll_clk_err / (clock_mil / FL2000_PLL_PRECISION)

/-- divisor_arr: the enumerated divisor table of fl2000_pll_get_divisor,
verbatim from the source. -/
def divisor_arr : List Nat :=
  [2,   4,   6,   7,   8,   9,   10,  11,  12,  13,  14,  15,  16,
   17,  18,  19,  20,  21,  22,  23,  24,  25,  26,  27,  28,  29,
   30,  31,  32,  33,  34,  35,  36,  37,  38,  39,  40,  41,  42,
   43,  44,  45,  46,  47,  48,  49,  50,  51,  52,  53,  54,  55,
   56,  57,  58,  59,  60,  61,  62,  63,  64,  65,  66,  67,  68,
   69,  70,  71,  72,  73,  74,  75,  76,  77,  78,  79,  80,  81,
   82,  83,  84,  85,  86,  87,  88,  89,  90,  91,  92,  93,  94,
   95,  96,  97,  98,  99,  100, 101, 102, 103, 104, 105, 106, 107,
   108, 109, 110, 111, 112, 113, 114, 115, 116, 117, 118, 119, 120,
   121, 122, 123, 124, 125, 126, 127, 128]

/-- One iteration of the divisor scan of fl2000_pll_get_divisor: the
accumulator carries `(min_ppm_err, best_divisor)`. -/
def pll_divisor_step (clock_mil : Nat) (vco_clk : Nat) (acc : Nat × Nat)
    (divisor : Nat) : Nat × Nat :=
  let ppm_err := fl2000_pll_ppm_err clock_mil vco_clk divisor
  if ppm_err < acc.1 then (ppm_err, divisor) else acc

/-- fl2000_pll_get_divisor: scan the divisor table tracking the divisor
with minimal ppm error.  Returns the updated `min_ppm_err` (in/out
parameter of the source) and `best_divisor` (0 when no divisor improved
on the incoming `min_ppm_err`). -/
def fl2000_pll_get_divisor (clock_mil : Nat) (vco_clk : Nat)
    (min_ppm_err : Nat) : Nat × Nat :=
  divisor_arr.foldl (pll_divisor_step clock_mil vco_clk) (min_ppm_err, 0)

/-- Accumulator of fl2000_pll_calc: the pll under construction, the
calculated clock, and the running minimal ppm error. -/
structure PllCalcAcc where
  pll : Pll
  clock_calculated : Nat
  min_ppm_err : Nat
  deriving Repr, DecidableEq

/-- The (prescaler, multiplier) pairs visited by the two nested loops of
fl2000_pll_calc, in scan order: prescaler 1..2 outer, multiplier 1..128
inner. -/
def pll_pairs : List (Nat × Nat) :=
  ((List.range 2).map (· + 1)).flatMap
    (fun p => ((List.range 128).map (· + 1)).map (fun m => (p, m)))

/-- Loop body of fl2000_pll_calc for one (prescaler, multiplier) pair. -/
def pll_calc_step (clock_mil : Nat) (acc : PllCalcAcc) (pm : Nat × Nat) :
    PllCalcAcc :=
  let vco_clk := FL2000_XTAL / pm.1 * pm.2
  if vco_clk < FL2000_VCOCLOCK_MIN ∨ vco_clk > FL2000_VCOCLOCK_MAX then acc
  else
    let res := fl2000_pll_get_divisor clock_mil vco_clk acc.min_ppm_err
    if res.2 = 0 then { acc with min_ppm_err := res.1 }
    else
      { pll := { prescaler := pm.1, multiplier := pm.2, divisor := res.2,
                 function :=
                   if vco_clk < 125000000 then 0
                   else if vco_clk < 250000000 then 1
                   else if vco_clk < 500000000 then 2
                   else 3,
                 min_ppm_err := acc.pll.min_ppm_err },
        clock_calculated := vco_clk / res.2,
        min_ppm_err := res.1 }

/-- fl2000_pll_calc: exhaustive scan over prescaler and multiplier.  The
source leaves `pll` and `clock_calculated` uninitialized in the caller;
they are parameters `pll0` and `cc0` here, only exposed when the scan
never updates them. -/
def fl2000_pll_calc (clock_mil : Nat) (pll0 : Pll) (cc0 : Nat) : PllCalcAcc :=
  pll_pairs.foldl (pll_calc_step clock_mil)
    { pll := pll0, clock_calculated := cc0, min_ppm_err := U64_MAX }

/-! ## Mode negotiation (fl2000_mode_calc) -/

/-- The fields of struct drm_display_mode read by fl2000_mode_calc:
clock in kHz and htotal in pixels. -/
structure DisplayMode where
  clock : Nat
  htotal : Nat
  deriving Repr, DecidableEq

/-- The fields of the adjusted mode written by fl2000_mode_calc on
success (all other fields are copied from the input by drm_mode_copy),
together with the pll it fills in. -/
structure ModeOut where
  htotal : Nat
  clock : Nat
  pll : Pll
  deriving Repr, DecidableEq

/-- The htotal-perturbation loop of fl2000_mode_calc.  The source
iterates `for (m = 0, s = 1; m <= 20; m++, s = -s) { d += m * s; ... }`;
here the loop counter values are consumed from a list and `s`, `d` are
carried as in the source.  The int expression
`clock_mil * (htotal + d) / htotal` of the source is modelled via
`Int.toNat` of `htotal + d`, which agrees with the source whenever
`htotal + d` is nonnegative (the driver assumes htotal well above 10). -/
def mode_calc_loop (clock_mil : Nat) (htotal : Nat) (pll0 : Pll) (cc0 : Nat) :
    List Nat → Int → Int → Option (Int × PllCalcAcc)
  | [], _, _ => none
  | m :: ms, s, d =>
    let d2 := d + (m : Int) * s
    let clock_mil_adjusted := clock_mil * ((htotal : Int) + d2).toNat / htotal
    let res := fl2000_pll_calc clock_mil_adjusted pll0 cc0
    if res.min_ppm_err < FL2000_PPM_ERR_MAX then some (d2, res)
    else mode_calc_loop clock_mil htotal pll0 cc0 ms (-s) d2

/-- The loop counter values m = 0..20 of the perturbation loop
(max_h_adjustment * 2 = 20 inclusive). -/
def m_range : List Nat :=
  [0, 1, 2, 3, 4, 5, 6, 7, 8, 9, 10, 11, 12, 13, 14, 15, 16, 17, 18, 19, 20]

/-- Success post-processing of fl2000_mode_calc: write back adjusted
htotal and clock (whole kHz) and the pll carrying its ppm error;
nothing is written on failure. -/
def mode_post (mode : DisplayMode) : Option (Int × PllCalcAcc) →
    Option ModeOut
  | none => none
  | some (d, res) =>
      some { htotal := ((mode.htotal : Int) + d).toNat,
             clock := res.clock_calculated / 1000,
             pll := { res.pll with min_ppm_err := res.min_ppm_err } }

/-- fl2000_mode_calc: reject when the requested pixel clock exceeds
FL2000_MAX_PIXCLOCK, otherwise run the perturbation loop; on success
write back adjusted htotal and clock (whole kHz) and the pll with its
ppm error.  `none` models the -1 return with the output mode and pll
left unwritten; `pll0`/`cc0` stand for the uninitialized locals of the
caller. -/
def fl2000_mode_calc (mode : DisplayMode) (pll0 : Pll) (cc0 : Nat) :
    Option ModeOut :=
  let clock_mil := mode.clock * 1000 * FL2000_PLL_PRECISION
  if mode.clock * 1000 > FL2000_MAX_PIXCLOCK then none
  else mode_post mode (mode_calc_loop clock_mil mode.htotal pll0 cc0 m_range 1 0)

/-- The htotal perturbations evaluated by fl2000_mode_calc, in order:
derived instrumentation of the same loop, recording each delta at which
fl2000_pll_calc is invoked. -/
def mode_calc_trace_loop (clock_mil : Nat) (htotal : Nat) (pll0 : Pll)
    (cc0 : Nat) : List Nat → Int → Int → List Int
  | [], _, _ => []
  | m :: ms, s, d =>
    let d2 := d + (m : Int) * s
    let res :=
      fl2000_pll_calc (clock_mil * ((htotal : Int) + d2).toNat / htotal) pll0 cc0
    if res.min_ppm_err < FL2000_PPM_ERR_MAX then [d2]
    else d2 :: mode_calc_trace_loop clock_mil htotal pll0 cc0 ms (-s) d2

/-- The perturbations evaluated by a full fl2000_mode_calc call. -/
def fl2000_mode_calc_trace (mode : DisplayMode) (pll0 : Pll) (cc0 : Nat) :
    List Int :=
  if mode.clock * 1000 > FL2000_MAX_PIXCLOCK then []
  else
    mode_calc_trace_loop (mode.clock * 1000 * FL2000_PLL_PRECISION) mode.htotal
      pll0 cc0 m_range 1 0

/-- The zig-zag delta sequence of the specification:
0, -1, +1, -2, +2, ... out to plus/minus 10. -/
def zigzag_deltas : List Int :=
  [0, -1, 1, -2, 2, -3, 3, -4, 4, -5, 5, -6, 6, -7, 7, -8, 8, -9, 9, -10, 10]

/-- Modelled from the spec: first-accept scan over an explicit delta
list, stopping at the first perturbation whose ppm error is strictly
below the threshold.  Compared against `mode_calc_loop` in the
refinement theorem for the zig-zag claim. -/
def mode_first_accept (clock_mil : Nat) (htotal : Nat) (pll0 : Pll)
    (cc0 : Nat) : List Int → Option (Int × PllCalcAcc)
  | [] => none
  | d :: ds =>
    let clock_mil_adjusted := clock_mil * ((htotal : Int) + d).toNat / htotal
    let res := fl2000_pll_calc clock_mil_adjusted pll0 cc0
    if res.min_ppm_err < FL2000_PPM_ERR_MAX then some (d, res)
    else mode_first_accept clock_mil htotal pll0 cc0 ds

/-! ## Streaming buffer pool (fl2000_streaming.c)

Buffers are modelled as an arena: a map from handle to buffer
attributes, with the three intrusive kernel lists modelled as three
lists of handles.  The intrusive `list_move_tail` of the source removes
a node from whatever list holds it and appends it to the target list;
here that is an erase from the three lists plus an append. -/

/-- The attributes of struct fl2000_stream_buf used by the queue logic. -/
structure StreamBuf where
  size : Nat
  in_flight : Nat
  deriving Repr, DecidableEq

/-- The streaming state of struct fl2000: the three buffer queues, the
buffer arena, the negotiated size/format, the enabled flag and the
semaphore counter of the worker. -/
structure FlState where
  render : List Nat
  transmit : List Nat
  wait : List Nat
  bufs : Nat → StreamBuf
  buf_size : Nat
  bytes_pix : Nat
  enabled : Bool
  sem_count : Nat

/-- All buffer handles across the three queues, render then transmit
then wait. -/
def poolIds (s : FlState) : List Nat := s.render ++ s.transmit ++ s.wait

/-- list_move_tail of the source: remove the node from whatever list
holds it.  Helper for the move operations below. -/
def erase_all (s : FlState) (cur : Nat) : FlState :=
  { s with render := s.render.erase cur,
           transmit := s.transmit.erase cur,
           wait := s.wait.erase cur }

/-- fl2000_stream_compress, queue part (the per-line pixel conversion
is modelled separately): take the front of the render list; drop the
frame when render is empty; reallocate a wrong-size buffer (`fresh` is
the handle of the newly allocated buffer); fill and move to the
transmit tail.  Returns the handle the frame pixels were written into,
or `none` when the frame was dropped. -/
def fl2000_stream_compress (s : FlState) (fresh : Nat) : FlState × Option Nat :=
  match s.render with
  | [] => (s, none)
  | cur :: rest =>
    if (s.bufs cur).size ≠ s.buf_size then
      ({ s with render := rest,
                transmit := s.transmit ++ [fresh],
                bufs := Function.update s.bufs fresh ⟨s.buf_size, 0⟩ },
       some fresh)
    else
      ({ s with render := rest, transmit := s.transmit ++ [cur] }, some cur)

/-- Buffer selection of fl2000_stream_work: front of transmit;
when transmit is empty, the newest (tail) entry of wait, or of render
when wait is empty too.  `none` when all three queues are empty (the
source would dereference an empty list head there; unreachable while
the pool holds its buffers). -/
def select_for_transmit (s : FlState) : Option Nat :=
  match s.transmit with
  | cur :: _ => some cur
  | [] =>
    match s.wait.getLast? with
    | some cur => some cur
    | none => s.render.getLast?

/-- After selection, fl2000_stream_work checks the buffer size:
a wrong-size buffer is moved back to the render tail and the semaphore
re-raised (the `continue` path); otherwise in_flight is incremented and
the buffer moves to the wait tail for submission.  Returns the handle
submitted, `none` on the requeue path. -/
def work_dispatch (s : FlState) (cur : Nat) : FlState × Option Nat :=
  let s2 := erase_all s cur
  if (s.bufs cur).size ≠ s.buf_size then
    ({ s2 with render := s2.render ++ [cur], sem_count := s.sem_count + 1 },
     none)
  else
    ({ s2 with wait := s2.wait ++ [cur],
               bufs := Function.update s.bufs cur
                 ⟨(s.bufs cur).size, (s.bufs cur).in_flight + 1⟩ },
     some cur)

/-- One queue transition of the fl2000_stream_work loop body. -/
def fl2000_stream_work_select (s : FlState) : Option (FlState × Option Nat) :=
  match select_for_transmit s with
  | none => none
  | some cur => some (work_dispatch s cur)

/-- fl2000_stream_data_completion, queue part: decrement in_flight of
the completed buffer and, when it reaches zero, move the buffer to the
render tail; the semaphore is raised unconditionally. -/
def fl2000_stream_data_completion (s : FlState) (cur : Nat) : FlState :=
  let b := s.bufs cur
  let bufs2 := Function.update s.bufs cur ⟨b.size, b.in_flight - 1⟩
  if b.in_flight - 1 = 0 then
    let s2 := erase_all s cur
    { s2 with bufs := bufs2, render := s2.render ++ [cur],
              sem_count := s.sem_count + 1 }
  else
    { s with bufs := bufs2, sem_count := s.sem_count + 1 }

/-- The drain loops of fl2000_stream_disable: repeatedly move the first
entry of the source list to the tail of the destination list. -/
def drain_to_tail (dst : List Nat) : List Nat → List Nat
  | [] => dst
  | cur :: rest => drain_to_tail (dst ++ [cur]) rest

/-- fl2000_stream_disable, queue part: clear the enabled flag, then
move every transmit entry and every wait entry to the render tail. -/
def fl2000_stream_disable (s : FlState) : FlState :=
  let render2 := drain_to_tail s.render s.transmit
  let render3 := drain_to_tail render2 s.wait
  { s with enabled := false, render := render3, transmit := [], wait := [] }

/-- fl2000_stream_enable: BUG_ON(list_empty(transmit_list)) modelled as
`none`; otherwise re-initialize the semaphore to 0, set enabled, start
the worker, and raise the semaphore FL2000_SB_MIN = 3 times; the
function then returns 0. -/
def fl2000_stream_enable (s : FlState) : Option (FlState × Int) :=
  if s.transmit.isEmpty then none
  else some ({ s with sem_count := 3, enabled := true }, 0)

/-! ## Pixel packers (fl2000_xrgb888_to_... ) -/

/-- The 5-6-5 value computed by fl2000_xrgb888_to_rgb565_line for one
32-bit XRGB8888 sample. -/
def rgb565_of_xrgb (pix : Nat) : Nat :=
  ((pix &&& 0x00F80000) >>> 8) |||
  ((pix &&& 0x0000FC00) >>> 5) |||
  ((pix &&& 0x000000F8) >>> 3)

/-- fl2000_xrgb888_to_rgb565_line: for each x the 16-bit value of source
pixel x is stored at u16 index `x ^^^ 2` of the destination.  The
result lists the (destination index, value) stores in loop order. -/
def fl2000_xrgb888_to_rgb565_line (sbuf : Nat → Nat) (pixels : Nat) :
    List (Nat × Nat) :=
  (List.range pixels).map (fun x => (x ^^^ 2, rgb565_of_xrgb (sbuf x)))

/-! ## URB submission helpers (fl2000.h) and the transmit worker -/

/-- The errno value 6, named ENXIO in the kernel. -/
def ENXIO_ERR : Int := 6

/-- errno value ENOMEM. -/
def ENOMEM : Int := 12

/-- errno value EPIPE. -/
def EPIPE : Int := 32

/-- The do/while retry loop of fl2000_submit_urb.  `outcomes k` is the
result of the k-th usb_submit_urb call; `attempts` is the remaining
retry budget (10 on entry).  Returns the final return value and the
total number of usb_submit_urb calls made. -/
def submit_urb_go (outcomes : Nat → Int) : Nat → Nat → Int × Nat
  | attempts, k =>
    let ret := outcomes k
    if ret = -ENXIO_ERR ∨ ret = -ENOMEM then
      match attempts with
      | a + 1 => submit_urb_go outcomes a (k + 1)
      | 0 => (ret, k + 1)
    else (ret, k + 1)

/-- fl2000_submit_urb: submit with an initial retry budget of 10. -/
def fl2000_submit_urb (outcomes : Nat → Int) : Int × Nat :=
  submit_urb_go outcomes 10 0

/-- The submission-failure handling of the fl2000_stream_work loop:
a nonzero fl2000_submit_urb result clears the enabled flag and breaks
out of the loop.  The Bool is whether the loop continues. -/
def stream_work_submit_check (s : FlState) (ret : Int) : FlState × Bool :=
  if ret ≠ 0 then ({ s with enabled := false }, false) else (s, true)

/-- One bulk transfer issued by fl2000_stream_work: payload length and
whether the URB_ZERO_PACKET flag is set. -/
structure UrbDesc where
  payload : Nat
  zero_packet_flag : Bool
  deriving Repr, DecidableEq

/-- The transfers issued by one iteration of fl2000_stream_work for a
buffer of the given size (assuming allocations and submissions
succeed): one data URB covering the buffer, with URB_ZERO_PACKET set
exactly when the size is a whole number of max-packet units; followed
by one zero-length companion URB exactly when it is not. -/
def fl2000_stream_work_urbs (size max_packet : Nat) : List UrbDesc :=
  let data : UrbDesc := ⟨size, size % max_packet == 0⟩
  if size % max_packet ≠ 0 then [data, ⟨0, false⟩] else [data]

/-- fl2000_urb_status: on a stalled endpoint (-EPIPE) the halt is
cleared and the clear result returned; any other status is returned
unchanged.  The Bool records whether usb_clear_halt was invoked. -/
def fl2000_urb_status (status : Int) (clear_halt_ret : Int) : Int × Bool :=
  if status = -EPIPE then (clear_halt_ret, true) else (status, false)

/-- The externally visible actions of fl2000_stream_data_completion
beyond the queue transition: the vblank signal, the semaphore raise,
whether the halt was cleared via fl2000_urb_status, and the number of
usb_submit_urb calls the handler performs (the source performs none:
no resubmission happens in the completion path). -/
structure CompletionActions where
  vblank : Bool
  sem_up : Nat
  clear_halt : Bool
  resubmits : Nat
  deriving Repr, DecidableEq

/-- Action trace of fl2000_stream_data_completion for a completion with
the given URB status: vblank is signalled, the semaphore raised once,
fl2000_urb_status consulted; the handler contains no usb_submit_urb
call. -/
def fl2000_stream_data_completion_actions (status clear_halt_ret : Int) :
    CompletionActions :=
  { vblank := true, sem_up := 1,
    clear_halt := (fl2000_urb_status status clear_halt_ret).2,
    resubmits := 0 }

/-! ## Specification-side comparison definition for the zig-zag claim -/

/-- Modelled from the spec: mode negotiation as a first-accept scan over
the explicit zig-zag delta list.  Refinement target for
fl2000_mode_calc. -/
def fl2000_mode_calc_zigzag (mode : DisplayMode) (pll0 : Pll) (cc0 : Nat) :
    Option ModeOut :=
  mode_post mode
    (mode_first_accept (mode.clock * 1000 * FL2000_PLL_PRECISION)
      mode.htotal pll0 cc0 zigzag_deltas)

/-! ## Concrete states used to evaluate the theorems -/

/-- A streaming state with empty render and transmit queues and one
buffer in flight on the wait queue. -/
def empty_render_state : FlState :=
  { render := [], transmit := [], wait := [5], bufs := fun _ => ⟨8, 1⟩,
    buf_size := 8, bytes_pix := 2, enabled := true, sem_count := 0 }

/-- A streaming state holding the four pool buffers spread over the
three queues, all sized to the negotiated buffer size. -/
def pool_state : FlState :=
  { render := [1, 2], transmit := [3], wait := [4], bufs := fun _ => ⟨16, 1⟩,
    buf_size := 16, bytes_pix := 2, enabled := true, sem_count := 0 }

/-- Like pool_state but with stale (wrong-size) buffers, exercising the
lazy-reallocation path of the compress operation. -/
def stale_pool_state : FlState :=
  { render := [1, 2], transmit := [3], wait := [4], bufs := fun _ => ⟨8, 0⟩,
    buf_size := 16, bytes_pix := 2, enabled := true, sem_count := 0 }

/-- A streaming state whose transmit queue is empty, as right after a
disable. -/
def empty_transmit_state : FlState :=
  { render := [1, 2, 3, 4], transmit := [], wait := [], bufs := fun _ => ⟨16, 0⟩,
    buf_size := 16, bytes_pix := 2, enabled := false, sem_count := 0 }

/-! ## Helper lemmas -/

theorem foldl_divisor_step_zero (c v b : Nat) (l : List Nat) :
    List.foldl (pll_divisor_step c v) (0, b) l = (0, b) := by
  induction l with
  | nil => rfl
  | cons x xs ih => simpa [pll_divisor_step] using ih

theorem get_divisor_zero (c v : Nat) : fl2000_pll_get_divisor c v 0 = (0, 0) :=
  foldl_divisor_step_zero c v 0 divisor_arr

theorem pll_calc_step_stable (c : Nat) (acc : PllCalcAcc) (pm : Nat × Nat)
    (h : acc.min_ppm_err = 0) : pll_calc_step c acc pm = acc := by
  unfold pll_calc_step
  by_cases hv : FL2000_XTAL / pm.1 * pm.2 < FL2000_VCOCLOCK_MIN ∨
      FL2000_XTAL / pm.1 * pm.2 > FL2000_VCOCLOCK_MAX
  · simp only [hv, if_true]
  · obtain ⟨p, cc, m⟩ := acc
    simp only at h
    subst h
    simp only [hv, if_false, get_divisor_zero, if_true]

theorem foldl_calc_stable (c : Nat) (acc : PllCalcAcc) (l : List (Nat × Nat))
    (h : acc.min_ppm_err = 0) : List.foldl (pll_calc_step c) acc l = acc := by
  induction l with
  | nil => rfl
  | cons x xs ih => rw [List.foldl_cons, pll_calc_step_stable c acc x h, ih]

theorem pll_calc_ten_mhz :
    fl2000_pll_calc 10000000000000 ⟨0, 0, 0, 0, 0⟩ 0 =
      { pll := ⟨1, 7, 7, 0, 0⟩, clock_calculated := 10000000,
        min_ppm_err := 0 } := by
  have hsplit : pll_pairs = pll_pairs.take 7 ++ pll_pairs.drop 7 :=
    (List.take_append_drop 7 pll_pairs).symm
  unfold fl2000_pll_calc
  rw [hsplit, List.foldl_append]
  have h1 : List.foldl (pll_calc_step 10000000000000)
      { pll := ⟨0, 0, 0, 0, 0⟩, clock_calculated := 0, min_ppm_err := U64_MAX }
      (pll_pairs.take 7) =
      { pll := ⟨1, 7, 7, 0, 0⟩, clock_calculated := 10000000,
        min_ppm_err := 0 } := by
    decide
  rw [h1, foldl_calc_stable _ _ _ rfl]

theorem foldl_divisor_mem (c v : Nat) (l : List Nat) (acc : Nat × Nat) :
    List.foldl (pll_divisor_step c v) acc l = acc ∨
      (List.foldl (pll_divisor_step c v) acc l).2 ∈ l := by
  induction l generalizing acc with
  | nil => exact Or.inl rfl
  | cons x xs ih =>
    rw [List.foldl_cons]
    rcases ih (pll_divisor_step c v acc x) with h | h
    · rw [h]
      unfold pll_divisor_step
      by_cases hlt : fl2000_pll_ppm_err c v x < acc.1
      · exact Or.inr (by simp [hlt])
      · exact Or.inl (by simp [hlt])
    · exact Or.inr (List.mem_cons_of_mem x h)

theorem get_divisor_characterization (c v m : Nat) :
    ((fl2000_pll_get_divisor c v m).2 = 0 ∧
        (fl2000_pll_get_divisor c v m).1 = m) ∨
      (fl2000_pll_get_divisor c v m).2 ∈ divisor_arr := by
  rcases foldl_divisor_mem c v divisor_arr (m, 0) with h | h
  · exact Or.inl (by rw [fl2000_pll_get_divisor, h]; exact ⟨rfl, rfl⟩)
  · exact Or.inr h

theorem pll_calc_divisor_mem (c cc0 : Nat) (pll0 : Pll) :
    (fl2000_pll_calc c pll0 cc0).pll = pll0 ∨
      (fl2000_pll_calc c pll0 cc0).pll.divisor ∈ divisor_arr := by
  unfold fl2000_pll_calc
  generalize hinit :
    ({ pll := pll0, clock_calculated := cc0, min_ppm_err := U64_MAX } :
      PllCalcAcc) = init
  have hbase : init.pll = pll0 ∨ init.pll.divisor ∈ divisor_arr :=
    Or.inl (by rw [← hinit])
  clear hinit
  induction pll_pairs generalizing init with
  | nil => exact hbase
  | cons pm pms ih =>
    rw [List.foldl_cons]
    apply ih
    unfold pll_calc_step
    by_cases hv : FL2000_XTAL / pm.1 * pm.2 < FL2000_VCOCLOCK_MIN ∨
        FL2000_XTAL / pm.1 * pm.2 > FL2000_VCOCLOCK_MAX
    · simpa [hv] using hbase
    · simp only [hv, if_false]
      by_cases hz :
          (fl2000_pll_get_divisor c (FL2000_XTAL / pm.1 * pm.2)
            init.min_ppm_err).2 = 0
      · simpa [hz] using hbase
      · simp only [hz, if_false]
        rcases get_divisor_characterization c (FL2000_XTAL / pm.1 * pm.2)
            init.min_ppm_err with h | h
        · exact absurd h.1 hz
        · exact Or.inr h

theorem loop_eq_first_accept (clock_mil htotal : Nat) (pll0 : Pll) (cc0 : Nat) :
    mode_calc_loop clock_mil htotal pll0 cc0 m_range 1 0 =
      mode_first_accept clock_mil htotal pll0 cc0 zigzag_deltas := by
  simp only [mode_calc_loop, mode_first_accept, m_range, zigzag_deltas]
  norm_num

theorem drain_to_tail_eq (dst src : List Nat) :
    drain_to_tail dst src = dst ++ src := by
  induction src generalizing dst with
  | nil => simp [drain_to_tail]
  | cons x xs ih => simp [drain_to_tail, ih]

theorem count_one_of_nodup_mem {l : List Nat} {a : Nat} (hnd : l.Nodup)
    (hmem : a ∈ l) : l.count a = 1 :=
  Nat.le_antisymm (List.nodup_iff_count_le_one.mp hnd a)
    (List.count_pos_iff.mpr hmem)

theorem move_perm_render (r t w : List Nat) (cur : Nat)
    (h1 : r.count cur + t.count cur + w.count cur = 1) :
    List.Perm ((r.erase cur ++ [cur]) ++ t.erase cur ++ w.erase cur)
      (r ++ t ++ w) := by
  rw [List.perm_iff_count]
  intro x
  have hc : List.count cur [cur] = 1 := by simp
  by_cases hx : x = cur
  · subst hx
    simp only [List.count_append, List.count_erase_self, hc]
    omega
  · simp [List.count_append, List.count_erase_of_ne hx, hx]

theorem move_perm_wait (r t w : List Nat) (cur : Nat)
    (h1 : r.count cur + t.count cur + w.count cur = 1) :
    List.Perm (r.erase cur ++ t.erase cur ++ (w.erase cur ++ [cur]))
      (r ++ t ++ w) := by
  rw [List.perm_iff_count]
  intro x
  have hc : List.count cur [cur] = 1 := by simp
  by_cases hx : x = cur
  · subst hx
    simp only [List.count_append, List.count_erase_self, hc]
    omega
  · simp [List.count_append, List.count_erase_of_ne hx, hx]

theorem select_for_transmit_mem (s : FlState) (cur : Nat)
    (h : select_for_transmit s = some cur) : cur ∈ poolIds s := by
  unfold select_for_transmit at h
  cases ht : s.transmit with
  | cons c ts =>
    rw [ht] at h
    simp only [Option.some.injEq] at h
    subst h
    simp [poolIds, ht]
  | nil =>
    rw [ht] at h
    cases hw : s.wait.getLast? with
    | some c =>
      rw [hw] at h
      simp only [Option.some.injEq] at h
      subst h
      have hm : c ∈ s.wait := List.mem_of_getLast?_eq_some hw
      simp [poolIds, hm]
    | none =>
      rw [hw] at h
      simp only at h
      have hm : cur ∈ s.render := List.mem_of_getLast?_eq_some h
      simp [poolIds, hm]

theorem poolIds_count_split (s : FlState) {cur : Nat}
    (h : (poolIds s).count cur = 1) :
    s.render.count cur + s.transmit.count cur + s.wait.count cur = 1 := by
  rw [poolIds, List.count_append, List.count_append] at h
  omega

theorem work_dispatch_perm (s : FlState) (cur : Nat) (hmem : cur ∈ poolIds s)
    (hnd : (poolIds s).Nodup) :
    List.Perm (poolIds (work_dispatch s cur).1) (poolIds s) := by
  have h1 := poolIds_count_split s (count_one_of_nodup_mem hnd hmem)
  unfold work_dispatch erase_all
  by_cases hsz : (s.bufs cur).size ≠ s.buf_size
  · rw [if_pos hsz]
    exact move_perm_render _ _ _ _ h1
  · rw [if_neg hsz]
    exact move_perm_wait _ _ _ _ h1

theorem compress_perm_sized (s : FlState) (fresh cur : Nat) (rest : List Nat)
    (hr : s.render = cur :: rest) (hsz : (s.bufs cur).size = s.buf_size) :
    List.Perm (poolIds (fl2000_stream_compress s fresh).1) (poolIds s) := by
  unfold fl2000_stream_compress
  rw [hr]
  dsimp only
  rw [if_neg (by simp [hsz])]
  rw [List.perm_iff_count]
  intro x
  simp [poolIds, hr, List.count_append, List.count_cons]
  omega

theorem compress_perm_realloc (s : FlState) (fresh cur : Nat) (rest : List Nat)
    (hr : s.render = cur :: rest) (hsz : ¬ (s.bufs cur).size = s.buf_size) :
    List.Perm (poolIds (fl2000_stream_compress s fresh).1)
      (fresh :: (rest ++ s.transmit ++ s.wait)) := by
  unfold fl2000_stream_compress
  rw [hr]
  dsimp only
  rw [if_pos hsz]
  rw [List.perm_iff_count]
  intro x
  simp [poolIds, List.count_append, List.count_cons]
  omega

theorem completion_perm (s : FlState) (cur : Nat) (hmem : cur ∈ poolIds s)
    (hnd : (poolIds s).Nodup) :
    List.Perm (poolIds (fl2000_stream_data_completion s cur)) (poolIds s) := by
  have h1 := poolIds_count_split s (count_one_of_nodup_mem hnd hmem)
  unfold fl2000_stream_data_completion erase_all
  by_cases hz : (s.bufs cur).in_flight - 1 = 0
  · rw [if_pos hz]
    have hc : List.count cur [cur] = 1 := by simp
    rw [List.perm_iff_count]
    intro x
    by_cases hx : x = cur
    · subst hx
      simp only [poolIds, List.count_append, List.count_erase_self, hc]
      omega
    · simp [poolIds, List.count_append, List.count_erase_of_ne hx, hx]
  · rw [if_neg hz]
    simp [poolIds]

theorem disable_perm (s : FlState) :
    List.Perm (poolIds (fl2000_stream_disable s)) (poolIds s) := by
  simp [fl2000_stream_disable, drain_to_tail_eq, poolIds]

theorem work_select_perm (s : FlState) (s2 : FlState) (sub : Option Nat)
    (h : fl2000_stream_work_select s = some (s2, sub))
    (hnd : (poolIds s).Nodup) : List.Perm (poolIds s2) (poolIds s) := by
  unfold fl2000_stream_work_select at h
  cases hsel : select_for_transmit s with
  | none => rw [hsel] at h; exact absurd h (by simp)
  | some cur =>
    rw [hsel] at h
    simp only [Option.some.injEq] at h
    have hmem := select_for_transmit_mem s cur hsel
    have hp := work_dispatch_perm s cur hmem hnd
    rw [h] at hp
    exact hp

theorem submit_urb_go_calls_le (outcomes : Nat → Int) :
    ∀ attempts k, (submit_urb_go outcomes attempts k).2 ≤ k + attempts + 1 := by
  intro attempts
  induction attempts with
  | zero =>
    intro k
    unfold submit_urb_go
    by_cases h : outcomes k = -ENXIO_ERR ∨ outcomes k = -ENOMEM
    · simp only [h, if_true]
      omega
    · simp only [h, if_false]
      omega
  | succ a ih =>
    intro k
    unfold submit_urb_go
    by_cases h : outcomes k = -ENXIO_ERR ∨ outcomes k = -ENOMEM
    · simp only [h, if_true]
      have := ih (k + 1)
      omega
    · simp only [h, if_false]
      omega

theorem submit_urb_go_persistent (outcomes : Nat → Int)
    (hall : ∀ k, outcomes k = -ENXIO_ERR ∨ outcomes k = -ENOMEM) :
    ∀ attempts k, submit_urb_go outcomes attempts k =
      (outcomes (k + attempts), k + attempts + 1) := by
  intro attempts
  induction attempts with
  | zero =>
    intro k
    unfold submit_urb_go
    simp only [hall k, if_true]
    simp
  | succ a ih =>
    intro k
    unfold submit_urb_go
    simp only [hall k, if_true]
    rw [ih (k + 1)]
    have h2 : k + 1 + a = k + (a + 1) := by omega
    rw [h2]

theorem compress_preserves_nodup (s : FlState) (fresh : Nat)
    (hnd : (poolIds s).Nodup) (hfresh : fresh ∉ poolIds s) :
    (poolIds (fl2000_stream_compress s fresh).1).Nodup := by
  cases hr : s.render with
  | nil =>
    unfold fl2000_stream_compress
    rw [hr]
    exact hnd
  | cons c rest =>
    by_cases hsz : (s.bufs c).size = s.buf_size
    · exact ((compress_perm_sized s fresh c rest hr hsz).nodup_iff).mpr hnd
    · apply ((compress_perm_realloc s fresh c rest hr hsz).nodup_iff).mpr
      have hshape : poolIds s = c :: (rest ++ s.transmit ++ s.wait) := by
        simp [poolIds, hr]
      rw [hshape] at hnd hfresh
      rcases List.nodup_cons.mp hnd with ⟨-, htail⟩
      exact List.nodup_cons.mpr
        ⟨fun hm => hfresh (List.mem_cons_of_mem c hm), htail⟩

/-! ## Claim theorems -/

/-- C1 counterexample: the divisor scan does not evaluate only even
integers, and the divisor recorded in the best PLL configuration is not
always even.  For a requested clock of 10 MHz (clock_mil = 10^13 in
micro-units) the exhaustive solver records divisor 7, which is odd, and
7 is an entry of the enumerated divisor table. -/
theorem pll_divisor_not_even_counterexample :
    (fl2000_pll_calc 10000000000000 ⟨0, 0, 0, 0, 0⟩ 0).pll.divisor = 7 ∧
    (fl2000_pll_calc 10000000000000 ⟨0, 0, 0, 0, 0⟩ 0).pll.divisor % 2 = 1 ∧
    7 ∈ divisor_arr := by
  have h := pll_calc_ten_mhz
  exact ⟨by rw [h], by rw [h]; rfl, by decide⟩

/-- C1 (amended): the divisor scan evaluates exactly the enumerated
table 2, 4, 6 followed by every integer from 7 to 128; whenever the
solver records a best PLL configuration at all (the pll is not the
untouched input), the recorded divisor is an entry of that table, hence
an integer in [2, 128] that is even or at least 7. -/
theorem pll_calc_divisor_in_table :
    (∀ (clock_mil cc0 : Nat) (pll0 : Pll),
        (fl2000_pll_calc clock_mil pll0 cc0).pll = pll0 ∨
          (fl2000_pll_calc clock_mil pll0 cc0).pll.divisor ∈ divisor_arr) ∧
    (∀ x ∈ divisor_arr, 2 ≤ x ∧ x ≤ 128 ∧ (x % 2 = 0 ∨ 7 ≤ x)) :=
  ⟨fun clock_mil cc0 pll0 => pll_calc_divisor_mem clock_mil cc0 pll0,
   by decide⟩

/-- C1 (amended) witness: the table-membership bound evaluated at the
entry 7, and the solver disjunction at a concrete clock. -/
theorem pll_calc_divisor_in_table_witness :
    ((fl2000_pll_calc 1000000000 ⟨1, 1, 2, 0, 0⟩ 5).pll = ⟨1, 1, 2, 0, 0⟩ ∨
      (fl2000_pll_calc 1000000000 ⟨1, 1, 2, 0, 0⟩ 5).pll.divisor ∈
        divisor_arr) ∧
    (2 ≤ 7 ∧ 7 ≤ 128 ∧ (7 % 2 = 0 ∨ 7 ≤ 7)) :=
  ⟨pll_calc_divisor_in_table.1 1000000000 5 ⟨1, 1, 2, 0, 0⟩,
   pll_calc_divisor_in_table.2 7 (by decide)⟩

/-- C2 counterexample: a frame submitted while the render queue is
empty (and the transmit queue too) is skipped outright: the compress
operation selects no buffer and leaves the state unchanged, even though
the wait queue holds buffer 5 whose tail the claim says would be
overwritten. -/
theorem compress_empty_render_counterexample :
    fl2000_stream_compress empty_render_state 9 = (empty_render_state, none) ∧
    empty_render_state.render = [] ∧
    empty_render_state.transmit = [] ∧
    empty_render_state.wait = [5] :=
  ⟨rfl, rfl, rfl, rfl⟩

/-- C2 (amended): when the render queue is empty the frame submission
is dropped (no buffer is written and the pool state is untouched); the
newest-tail fallback to the wait queue (or the render queue when wait
is empty too) belongs to the transmit-side selection of the worker, not
to the encode side. -/
theorem compress_drop_and_worker_fallback (s : FlState) (fresh : Nat) :
    (s.render = [] → fl2000_stream_compress s fresh = (s, none)) ∧
    (s.transmit = [] → s.wait ≠ [] →
        select_for_transmit s = s.wait.getLast?) ∧
    (s.transmit = [] → s.wait = [] →
        select_for_transmit s = s.render.getLast?) := by
  refine ⟨fun h => ?_, fun ht hw => ?_, fun ht hw => ?_⟩
  · unfold fl2000_stream_compress
    rw [h]
  · unfold select_for_transmit
    rw [ht]
    cases hlast : s.wait.getLast? with
    | some c => rfl
    | none => exact absurd (List.getLast?_eq_none_iff.mp hlast) hw
  · unfold select_for_transmit
    rw [ht, hw]
    rfl

/-- C2 (amended) witness: the drop and the worker-side fallback
evaluated on the concrete state with empty render and transmit
queues. -/
theorem compress_drop_and_worker_fallback_witness :
    fl2000_stream_compress empty_render_state 9 = (empty_render_state, none) ∧
    select_for_transmit empty_render_state = empty_render_state.wait.getLast? :=
  ⟨(compress_drop_and_worker_fallback empty_render_state 9).1 rfl,
   (compress_drop_and_worker_fallback empty_render_state 9).2.1 rfl
     (by decide)⟩

/-- C3: for every requested mode whose clock does not exceed the
ceiling, fl2000_mode_calc equals the first-accept scan over the
explicit zig-zag delta list 0, -1, 1, ..., -10, 10 (21 entries, hence
at most 21 solver invocations, stopping at the first perturbation whose
ppm error is strictly below 500).  Both sides are functions of the
inputs, so the accept/reject decision and the adjusted htotal and clock
are deterministic. -/
theorem mode_calc_zigzag_refinement (mode : DisplayMode) (pll0 : Pll)
    (cc0 : Nat) (hclk : mode.clock * 1000 ≤ FL2000_MAX_PIXCLOCK) :
    fl2000_mode_calc mode pll0 cc0 = fl2000_mode_calc_zigzag mode pll0 cc0 ∧
    zigzag_deltas.length = 21 := by
  constructor
  · unfold fl2000_mode_calc fl2000_mode_calc_zigzag
    rw [if_neg (by omega)]
    exact congrArg (mode_post mode) (loop_eq_first_accept _ _ _ _)
  · decide

/-- C3 witness: the refinement evaluated at a 25.175 MHz VGA mode. -/
theorem mode_calc_zigzag_refinement_witness :
    25175 * 1000 ≤ FL2000_MAX_PIXCLOCK ∧
    (fl2000_mode_calc ⟨25175, 800⟩ ⟨0, 0, 0, 0, 0⟩ 0 =
        fl2000_mode_calc_zigzag ⟨25175, 800⟩ ⟨0, 0, 0, 0, 0⟩ 0 ∧
      zigzag_deltas.length = 21) :=
  ⟨by decide,
   mode_calc_zigzag_refinement ⟨25175, 800⟩ ⟨0, 0, 0, 0, 0⟩ 0 (by decide)⟩

/-- C4: a requested mode whose pixel clock is strictly above 500 MHz is
rejected immediately: fl2000_mode_calc returns the rejection sentinel
with the adjusted mode unwritten, and the perturbation trace is empty,
so no htotal perturbation and no PLL evaluation happens. -/
theorem mode_calc_reject_above_ceiling (mode : DisplayMode) (pll0 : Pll)
    (cc0 : Nat) (h : mode.clock * 1000 > FL2000_MAX_PIXCLOCK) :
    fl2000_mode_calc mode pll0 cc0 = none ∧
    fl2000_mode_calc_trace mode pll0 cc0 = [] := by
  unfold fl2000_mode_calc fl2000_mode_calc_trace
  rw [if_pos h, if_pos h]
  exact ⟨rfl, rfl⟩

/-- C4 witness: rejection of a 500.001 MHz mode. -/
theorem mode_calc_reject_above_ceiling_witness :
    500001 * 1000 > FL2000_MAX_PIXCLOCK ∧
    (fl2000_mode_calc ⟨500001, 800⟩ ⟨0, 0, 0, 0, 0⟩ 0 = none ∧
      fl2000_mode_calc_trace ⟨500001, 800⟩ ⟨0, 0, 0, 0, 0⟩ 0 = []) :=
  ⟨by decide,
   mode_calc_reject_above_ceiling ⟨500001, 800⟩ ⟨0, 0, 0, 0, 0⟩ 0 (by decide)⟩

/-- C5: for a transmitted buffer whose size is not a whole number of
max-packet units, the worker issues exactly the data transfer followed
by one zero-length companion transfer (and the data URB does not carry
the URB_ZERO_PACKET flag in that case). -/
theorem stream_work_zero_length_companion (size max_packet : Nat)
    (h : size % max_packet ≠ 0) :
    fl2000_stream_work_urbs size max_packet =
      [⟨size, false⟩, ⟨0, false⟩] := by
  unfold fl2000_stream_work_urbs
  rw [if_pos h]
  have hb : (size % max_packet == 0) = false := by
    simp [h]
  rw [hb]

/-- C5 witness: a 12290-byte buffer on a 1024-byte max-packet endpoint
gets a data URB plus one zero-length companion. -/
theorem stream_work_zero_length_companion_witness :
    (12290 % 1024 ≠ 0) ∧
    fl2000_stream_work_urbs 12290 1024 = [⟨12290, false⟩, ⟨0, false⟩] :=
  ⟨by decide, stream_work_zero_length_companion 12290 1024 (by decide)⟩

/-- C6: resource-exhaustion submission failures (errno ENXIO and ENOMEM) are
retried immediately and boundedly: at most 11 usb_submit_urb calls
happen in total (the initial call plus at most 10 retries); any other
failure is returned after the single initial call (never retried); a
persistently failing class error is returned after exactly the
initial call plus 10 retries; and any nonzero result of
fl2000_submit_urb makes the worker clear the enabled flag and stop the
loop. -/
theorem submit_urb_retry_policy :
    (∀ outcomes : Nat → Int, (fl2000_submit_urb outcomes).2 ≤ 11) ∧
    (∀ outcomes : Nat → Int,
        ¬ (outcomes 0 = -ENXIO_ERR ∨ outcomes 0 = -ENOMEM) →
        fl2000_submit_urb outcomes = (outcomes 0, 1)) ∧
    (∀ outcomes : Nat → Int,
        (∀ k, outcomes k = -ENXIO_ERR ∨ outcomes k = -ENOMEM) →
        fl2000_submit_urb outcomes = (outcomes 10, 11)) ∧
    (∀ (s : FlState) (ret : Int), ret ≠ 0 →
        stream_work_submit_check s ret =
          ({ s with enabled := false }, false)) := by
  refine ⟨fun outcomes => ?_, fun outcomes h => ?_, fun outcomes hall => ?_,
    fun s ret h => ?_⟩
  · simpa using submit_urb_go_calls_le outcomes 10 0
  · unfold fl2000_submit_urb submit_urb_go
    rw [if_neg h]
  · simpa using submit_urb_go_persistent outcomes hall 10 0
  · unfold stream_work_submit_check
    rw [if_pos h]

/-- C6 witness: the retry policy evaluated on a persistent -ENOMEM
outcome, a one-shot -EIO outcome, and a failing worker submission. -/
theorem submit_urb_retry_policy_witness :
    (fl2000_submit_urb (fun _ => -ENOMEM)).2 ≤ 11 ∧
    fl2000_submit_urb (fun _ => -5) = (-5, 1) ∧
    fl2000_submit_urb (fun _ => -ENOMEM) = (-ENOMEM, 11) ∧
    stream_work_submit_check pool_state (-5) =
      ({ pool_state with enabled := false }, false) :=
  ⟨submit_urb_retry_policy.1 (fun _ => -ENOMEM),
   submit_urb_retry_policy.2.1 (fun _ => -5) (by decide),
   submit_urb_retry_policy.2.2.1 (fun _ => -ENOMEM) (fun k => Or.inr rfl),
   submit_urb_retry_policy.2.2.2 pool_state (-5) (by decide)⟩

/-- C7: each pool operation preserves exactly-one-queue membership of
every buffer handle.  The sized compress move, the worker selection
move, the completion move and the disable-time drain each permute the
multiset of handles across the three queues (so no handle is lost,
duplicated, or left in two queues); the reallocating compress replaces
exactly the stale head handle with the fresh one; and compress
preserves distinctness of handles. -/
theorem queue_membership_invariant (s : FlState) (fresh cur : Nat) :
    (∀ c rest, s.render = c :: rest → (s.bufs c).size = s.buf_size →
        List.Perm (poolIds (fl2000_stream_compress s fresh).1) (poolIds s)) ∧
    (∀ c rest, s.render = c :: rest → ¬ (s.bufs c).size = s.buf_size →
        List.Perm (poolIds (fl2000_stream_compress s fresh).1)
          (fresh :: (rest ++ s.transmit ++ s.wait))) ∧
    ((poolIds s).Nodup → fresh ∉ poolIds s →
        (poolIds (fl2000_stream_compress s fresh).1).Nodup) ∧
    (∀ s2 sub, fl2000_stream_work_select s = some (s2, sub) →
        (poolIds s).Nodup → List.Perm (poolIds s2) (poolIds s)) ∧
    (cur ∈ poolIds s → (poolIds s).Nodup →
        List.Perm (poolIds (fl2000_stream_data_completion s cur))
          (poolIds s)) ∧
    List.Perm (poolIds (fl2000_stream_disable s)) (poolIds s) :=
  ⟨fun c rest hr hsz => compress_perm_sized s fresh c rest hr hsz,
   fun c rest hr hsz => compress_perm_realloc s fresh c rest hr hsz,
   fun hnd hf => compress_preserves_nodup s fresh hnd hf,
   fun s2 sub h hnd => work_select_perm s s2 sub h hnd,
   fun hmem hnd => completion_perm s cur hmem hnd,
   disable_perm s⟩

/-- C7 witness: the membership preservation evaluated on the concrete
four-buffer pool states, covering the sized compress, the reallocating
compress, the worker selection, a completion of buffer 4 and the
disable drain. -/
theorem queue_membership_invariant_witness :
    List.Perm (poolIds (fl2000_stream_compress pool_state 9).1)
      (poolIds pool_state) ∧
    List.Perm (poolIds (fl2000_stream_compress stale_pool_state 9).1)
      (9 :: ([2] ++ stale_pool_state.transmit ++ stale_pool_state.wait)) ∧
    (poolIds (fl2000_stream_compress pool_state 9).1).Nodup ∧
    List.Perm
      (poolIds
        ((fl2000_stream_work_select pool_state).getD (pool_state, none)).1)
      (poolIds pool_state) ∧
    List.Perm (poolIds (fl2000_stream_data_completion pool_state 4))
      (poolIds pool_state) ∧
    List.Perm (poolIds (fl2000_stream_disable pool_state))
      (poolIds pool_state) :=
  ⟨(queue_membership_invariant pool_state 9 4).1 1 [2] rfl rfl,
   (queue_membership_invariant stale_pool_state 9 4).2.1 1 [2] rfl (by decide),
   (queue_membership_invariant pool_state 9 4).2.2.1 (by decide) (by decide),
   (queue_membership_invariant pool_state 9 4).2.2.2.1 _ _ rfl (by decide),
   (queue_membership_invariant pool_state 9 4).2.2.2.2.1 (by decide)
     (by decide),
   (queue_membership_invariant pool_state 9 4).2.2.2.2.2⟩

/-- C8: the 2-bytes-per-pixel packer stores, for every scanline
position x, the 5-6-5 value of source pixel x at destination u16 index
x XOR 2; for input pixel 0x00FF0080 the stored 16-bit value is 0xF810. -/
theorem rgb565_pack_and_store (sbuf : Nat → Nat) (pixels x : Nat)
    (hx : x < pixels) (hpix : sbuf x = 0x00FF0080) :
    (fl2000_xrgb888_to_rgb565_line sbuf pixels)[x]? =
      some (x ^^^ 2, 0xF810) := by
  unfold fl2000_xrgb888_to_rgb565_line
  rw [List.getElem?_map, List.getElem?_range hx]
  simp only [Option.map_some']
  rw [hpix]
  rfl

/-- C8 witness: the store of pixel 1 on a line of 0x00FF0080 pixels. -/
theorem rgb565_pack_and_store_witness :
    (1 < 4) ∧
    (fl2000_xrgb888_to_rgb565_line (fun _ => 0x00FF0080) 4)[1]? =
      some (1 ^^^ 2, 0xF810) :=
  ⟨by decide, rgb565_pack_and_store (fun _ => 0x00FF0080) 4 1 (by decide) rfl⟩

/-- C9 counterexample: on a halted-endpoint completion (-EPIPE) the
driver clears the halt but performs no resubmission at all, refuting
the resubmit-once part of the claim. -/
theorem completion_no_resubmit_counterexample :
    (fl2000_stream_data_completion_actions (-EPIPE) 0).clear_halt = true ∧
    (fl2000_stream_data_completion_actions (-EPIPE) 0).resubmits = 0 ∧
    ¬ (fl2000_stream_data_completion_actions (-EPIPE) 0).resubmits = 1 := by
  exact ⟨by decide, rfl, by decide⟩

/-- C9 (amended): when a transfer completes with the halted-endpoint
status, fl2000_urb_status clears the halt on the pipe and returns the
result of the clear (so only a failed clear surfaces an error to the
caller); the completion handler performs no resubmission of the
transfer and merely raises the worker semaphore once so the worker
issues the next transfer. -/
theorem urb_status_clear_halt_no_resubmit (status clear_halt_ret : Int)
    (h : status = -EPIPE) :
    fl2000_urb_status status clear_halt_ret = (clear_halt_ret, true) ∧
    (fl2000_stream_data_completion_actions status clear_halt_ret).resubmits
      = 0 ∧
    (fl2000_stream_data_completion_actions status clear_halt_ret).sem_up
      = 1 := by
  subst h
  exact ⟨by unfold fl2000_urb_status; rw [if_pos rfl], rfl, rfl⟩

/-- C9 (amended) witness: the clear-without-resubmit behavior at a
successful clear. -/
theorem urb_status_clear_halt_no_resubmit_witness :
    fl2000_urb_status (-EPIPE) 0 = (0, true) ∧
    (fl2000_stream_data_completion_actions (-EPIPE) 0).resubmits = 0 ∧
    (fl2000_stream_data_completion_actions (-EPIPE) 0).sem_up = 1 :=
  urb_status_clear_halt_no_resubmit (-EPIPE) 0 rfl

/-- C10: fl2000_stream_enable has the precondition that the transmit
queue be non-empty: with a non-empty transmit queue the BUG_ON
assertion is valid and enable re-arms the semaphore with the 3 credits,
sets the enabled flag and returns 0; with an empty transmit queue it
trips the BUG_ON assertion instead of returning an error. -/
theorem stream_enable_precondition (s : FlState) :
    (s.transmit ≠ [] →
        fl2000_stream_enable s =
          some ({ s with sem_count := 3, enabled := true }, 0)) ∧
    (s.transmit = [] → fl2000_stream_enable s = none) := by
  constructor
  · intro h
    unfold fl2000_stream_enable
    rw [if_neg (by simpa using h)]
  · intro h
    unfold fl2000_stream_enable
    rw [if_pos (by simpa using h)]

/-- C10 witness: enable succeeds with 0 on the populated pool state and
trips the assertion on the drained state. -/
theorem stream_enable_precondition_witness :
    fl2000_stream_enable pool_state =
      some ({ pool_state with sem_count := 3, enabled := true }, 0) ∧
    fl2000_stream_enable empty_transmit_state = none :=
  ⟨(stream_enable_precondition pool_state).1 (by decide),
   (stream_enable_precondition empty_transmit_state).2 rfl⟩

end Fl2000
